import Mathlib

/-!
Verification of the weather-notifier bot (`bot.py`).

The program has three parts:
* a forecast fetcher (`fetch_weather`) issuing one HTTP GET per location,
* a message builder (`build_message`) that filters hourly data to the
  current day in the 08:00(..)20:00 window and renders a text summary,
* a daily scheduler (`main`) waking at 06:00 Asia/Manila each day.

The embedding below mirrors `build_message` and the scheduling arithmetic of
`main`.  Effects are made explicit: the fetch is a parameter returning
`Except PyErr ApiResponse`; Python exceptions become `Except PyErr`;
JSON numbers become `ℚ`; JSON null becomes `Option.none`; the current
date strings (`now`, `today_str`, both derived from `datetime.now(PH_TZ)`
in the source) are parameters.  Local Asia/Manila time is modelled as a
count of seconds from a local midnight; Asia/Manila has a fixed UTC
offset and no daylight saving, so wall-clock arithmetic on such counts is
exact and `timedelta(days=1)` is addition of 86400 seconds.
-/

/-! ## String utilities -/

/-- Test whether the character list `p` leads the list `l` (models
Python `startswith`, first argument is the pattern). -/
def listLeadsWith : List Char → List Char → Bool
  | [], _ => true
  | _ :: _, [] => false
  | a :: as, b :: bs => a == b && listLeadsWith as bs

/-- Models Python `s.startswith (pre)`. -/
def strStartsWith (s pre : String) : Bool :=
  listLeadsWith pre.data s.data

/-- Models the Python slice `s[a:b]` for `0 ≤ a ≤ b`. -/
def sliceStr (s : String) (a b : Nat) : String :=
  ⟨(s.data.drop a).take (b - a)⟩

/-- Whether the character list `p` occurs contiguously inside `l`. -/
def containsSub (p : List Char) : List Char → Bool
  | [] => p.isEmpty
  | c :: rest => listLeadsWith p (c :: rest) || containsSub p rest

/-- Concatenation of a list of strings (models the `msg += ...`
accumulation loop). -/
def concatAll : List String → String
  | [] => ""
  | s :: rest => s ++ concatAll rest

/-! ## Decimal rendering of integers (Python `str` of an `int`) -/

/-- The decimal digit character for `n % 10`. -/
def digitChar10 (n : Nat) : Char :=
  match n with
  | 0 => '0' | 1 => '1' | 2 => '2' | 3 => '3' | 4 => '4'
  | 5 => '5' | 6 => '6' | 7 => '7' | 8 => '8' | _ => '9'

/-- Decimal digit characters, most significant first; the fuel argument
makes the recursion structural (any fuel above the digit count is
enough). -/
def natDigitsGo : Nat → Nat → List Char
  | 0, _ => []
  | fuel + 1, n =>
    if n < 10 then [digitChar10 n]
    else natDigitsGo fuel (n / 10) ++ [digitChar10 (n % 10)]

/-- Decimal digit characters of a natural number, most significant first. -/
def natDigits (n : Nat) : List Char :=
  natDigitsGo (n + 1) n

/-- Python decimal rendering of an integer. -/
def renderInt (i : ℤ) : String :=
  if i < 0 then "-" ++ String.mk (natDigits i.natAbs) else String.mk (natDigits i.natAbs)

/-! ## Python `int(...)` on a short string -/

/-- Digits-to-value accumulator: `none` as soon as a non-digit occurs. -/
def digitsVal (cs : List Char) : Option Nat :=
  cs.foldl
    (fun acc c =>
      match acc with
      | none => none
      | some n => if c.isDigit then some (n * 10 + (c.toNat - 48)) else none)
    (some 0)

/-- Models Python `int(s)` for the short slices used by the source:
surrounding whitespace is stripped, an optional sign is allowed, and at
least one digit is required; otherwise a `ValueError` is raised (here:
`none`).  (Underscore separators are irrelevant at length ≤ 2.) -/
def pyInt (s : String) : Option ℤ :=
  let cs := s.data.dropWhile Char.isWhitespace
  let cs := (cs.reverse.dropWhile Char.isWhitespace).reverse
  match cs with
  | '+' :: ds => if ds = [] then none else (digitsVal ds).map fun n => (n : ℤ)
  | '-' :: ds => if ds = [] then none else (digitsVal ds).map fun n => -(n : ℤ)
  | ds => if ds = [] then none else (digitsVal ds).map fun n => (n : ℤ)

/-! ## Python `round` (round half to even) on an exact rational value -/

/-- Floor of a rational, executable; equal to `Int.floor` (see
`pyFloor_eq_floor`). -/
def pyFloor (q : ℚ) : ℤ := q.num / (q.den : ℤ)

/-- Python `round(x)` with `ndigits` omitted: nearest integer, ties to
even.  The comparisons of the fractional part `q - ⌊q⌋` with `1/2` are
carried out on the numerator `q.num - ⌊q⌋ * q.den` over the positive
denominator `q.den`, in integer arithmetic. -/
def pythonRound (q : ℚ) : ℤ :=
  let f : ℤ := pyFloor q
  let rnum : ℤ := q.num - f * (q.den : ℤ)
  if 2 * rnum < (q.den : ℤ) then f
  else if (q.den : ℤ) < 2 * rnum then f + 1
  else if f % 2 = 0 then f else f + 1

/-! ## Data model (`open-meteo` JSON response, configuration) -/

/-- The `"hourly"` object of the API response: three parallel arrays.
A missing key models to `none`; a JSON null inside the numeric arrays
models to an inner `none`. -/
structure HourlyObj where
  time : Option (List String)
  temperature_2m : Option (List (Option ℚ))
  precipitation_probability : Option (List (Option ℚ))
deriving DecidableEq

/-- The parsed JSON body returned by `fetch_weather`. -/
structure ApiResponse where
  hourly : Option HourlyObj
deriving DecidableEq

/-- A configured location (`LOCATIONS` entries). -/
structure Location where
  name : String
  lat : ℚ
  lon : ℚ
deriving DecidableEq

/-- The fixed `LOCATIONS` configuration: Work then Home, coordinates
from the environment. -/
def LOCATIONS (workLat workLon homeLat homeLon : ℚ) : List Location :=
  [⟨"Work", workLat, workLon⟩, ⟨"Home", homeLat, homeLon⟩]

/-- Python exceptions that can escape the modelled code:
`fetchError` is any network or JSON error from `fetch_weather`;
`valueError` is `int()` applied to a non-numeric slice;
`typeError` is `None >= 30`;
`indexError` is `rains[i]` with `i` out of range. -/
inductive PyErr
  | fetchError
  | valueError
  | typeError
  | indexError
deriving DecidableEq, Repr

instance exceptDecEq {ε α : Type} [DecidableEq ε] [DecidableEq α] :
    DecidableEq (Except ε α) := fun a b =>
  match a, b with
  | .error e, .error f => decidable_of_iff (e = f) (by simp)
  | .ok x, .ok y => decidable_of_iff (x = y) (by simp)
  | .error _, .ok _ => isFalse (by simp)
  | .ok _, .error _ => isFalse (by simp)

/-- `data.get("hourly", {})`. -/
def hourlyOf (r : ApiResponse) : HourlyObj :=
  r.hourly.getD ⟨none, none, none⟩

/-- `hourly.get("time", [])`. -/
def timesOf (r : ApiResponse) : List String :=
  (hourlyOf r).time.getD []

/-- `hourly.get("temperature_2m", [])`. -/
def tempsOf (r : ApiResponse) : List (Option ℚ) :=
  (hourlyOf r).temperature_2m.getD []

/-- `hourly.get("precipitation_probability", [])`. -/
def rainsOf (r : ApiResponse) : List (Option ℚ) :=
  (hourlyOf r).precipitation_probability.getD []

/-! ## The filtering loop of `build_message` (lines 52-60) -/

/-- Result of the per-location filtering loop: the three
`filtered_*` lists and the contribution of this location to the
`will_rain` flag. -/
structure FilterRes where
  ftimes : List String
  ftemps : List (Option ℚ)
  frains : List (Option ℚ)
  flag : Bool
deriving DecidableEq, Repr

/-- The loop `for i in range(len(times))` of `build_message`, walking the
three parallel arrays in lockstep (the tails passed at each step are the
arrays from index `i` on, so `temps[i] if i < len(temps) else None`
becomes a head lookup).  For an entry of today with hour in `[8, 20]`:
`int(times[i][11:13])` failing raises ValueError; `rains[i]` out of
range raises IndexError; `None >= 30` raises TypeError; otherwise the
entry is appended and `will_rain` is or-ed with `rains[i] >= 30`. -/
def filterGo (today : String) :
    List String → List (Option ℚ) → List (Option ℚ) → Except PyErr FilterRes
  | [], _, _ => .ok ⟨[], [], [], false⟩
  | t :: ts, temps, rains =>
    if strStartsWith t today then
      match pyInt (sliceStr t 11 13) with
      | none => .error .valueError
      | some hr =>
        if 8 ≤ hr ∧ hr ≤ 20 then
          match rains with
          | [] => .error .indexError
          | none :: _ => .error .typeError
          | some q :: rs =>
            match filterGo today ts temps.tail rs with
            | .error e => .error e
            | .ok res =>
              .ok ⟨t :: res.ftimes, (temps.head?.getD none) :: res.ftemps,
                   some q :: res.frains, (decide (30 ≤ q) || res.flag)⟩
        else filterGo today ts temps.tail rains.tail
    else filterGo today ts temps.tail rains.tail

/-- Per-location processing: extract the arrays with defaults and run
the filtering loop. -/
def processResponse (today : String) (r : ApiResponse) : Except PyErr FilterRes :=
  filterGo today (timesOf r) (tempsOf r) (rainsOf r)

/-- One entry of `location_data`. -/
structure LocData where
  name : String
  times : List String
  temps : List (Option ℚ)
  rains : List (Option ℚ)
deriving DecidableEq, Repr

/-- The first loop of `build_message` (lines 39-67): fetch every
location, filter its arrays, accumulate `location_data` and the
`will_rain` flag.  Any exception aborts the whole construction. -/
def gatherData (fetch : ℚ → ℚ → Except PyErr ApiResponse) (today : String) :
    List Location → Except PyErr (List LocData × Bool)
  | [] => .ok ([], false)
  | loc :: rest =>
    match fetch loc.lat loc.lon with
    | .error e => .error e
    | .ok data =>
      match processResponse today data with
      | .error e => .error e
      | .ok res =>
        match gatherData fetch today rest with
        | .error e => .error e
        | .ok (lds, flag) =>
          .ok (⟨loc.name, res.ftimes, res.ftemps, res.frains⟩ :: lds,
               res.flag || flag)

/-! ## Rendering (`build_message` lines 69-81) -/

/-- `round(v)` rendered, or `"N/A"` when the stored value is `None`. -/
def rOpt (v : Option ℚ) : String :=
  match v with
  | some q => renderInt (pythonRound q)
  | none => "N/A"

/-- One data line: `f"{time_str} - {temp}°C, {rain}%\n"` with
`time_str = loc["times"][i][11:16]`. -/
def renderLine (t : String) (temp rain : Option ℚ) : String :=
  sliceStr t 11 16 ++ " - " ++ rOpt temp ++ "°C, " ++ rOpt rain ++ "%\n"

/-- The inner rendering loop over the (equal-length, see
`filterGo_lengths`) filtered arrays. -/
def renderLines : List String → List (Option ℚ) → List (Option ℚ) → String
  | [], _, _ => ""
  | t :: ts, temps, rains =>
    renderLine t (temps.head?.getD none) (rains.head?.getD none) ++
      renderLines ts temps.tail rains.tail

/-- One location block: header line, data lines, terminating blank line. -/
def renderBlock (ld : LocData) : String :=
  ld.name ++ ":\n" ++ renderLines ld.times ld.temps ld.rains ++ "\n"

/-- The rain and sun emojis of line 69. -/
def rainEmoji : String := "🌦️"

/-- The sun emoji chosen when `will_rain` is false. -/
def sunEmoji : String := "☀️"

/-- `build_message` (lines 31-81).  `nowStr` and `today` stand for the
two `datetime.now(PH_TZ).strftime(...)` strings; `fetch` stands for
`fetch_weather`; `locations` stands for the `LOCATIONS` global. -/
def build_message (fetch : ℚ → ℚ → Except PyErr ApiResponse)
    (nowStr today : String) (locations : List Location) : Except PyErr String :=
  match gatherData fetch today locations with
  | .error e => .error e
  | .ok (lds, willRain) =>
    .ok (nowStr ++ " " ++ (if willRain then rainEmoji else sunEmoji) ++ "\n\n" ++
         concatAll (lds.map renderBlock))

/-! ## The daily scheduler (`main`, lines 84-128) -/

/-- Lines 93-102: from the current local time (seconds since a local
midnight) compute the next 06:00 target: today at 06:00, rolled one day
forward when `now_ph >= target_ph`. -/
def computeTarget (now : ℕ) : ℕ :=
  let target := (now / 86400) * 86400 + 6 * 3600
  if target ≤ now then target + 86400 else target

/-- Outcome of one iteration of the `while True` loop. -/
inductive IterOutcome
  | continued (next : ℕ)
  | crashed (e : PyErr)
deriving DecidableEq, Repr

/-- One iteration of the scheduler loop (lines 91-124): sleep until the
computed target, call `build_message` (its result is the `buildRes`
parameter; an exception from it, fetch errors included, is not inside
any `try` other than the outer `except KeyboardInterrupt`, so it
escapes the loop: `crashed`), then `bot.send_message` inside
`try/except Exception`: on failure the error is printed, 10 seconds are
slept, and the loop continues to the next iteration. -/
def loopIteration (now : ℕ) (buildRes : Except PyErr String)
    (sendOk : Bool) : IterOutcome :=
  let wake := computeTarget now
  match buildRes with
  | .error e => .crashed e
  | .ok _msg => if sendOk then .continued wake else .continued (wake + 10)

/-! ## Spec-side predicates (from the wording of the specification) -/

/-- Spec-side predicate: the hourly entry `t` is retained, i.e. its date
matches today and its hour lies in `[8, 20]` inclusive. -/
def retainedB (today t : String) : Bool :=
  strStartsWith t today &&
    match pyInt (sliceStr t 11 13) with
    | some hr => decide (8 ≤ hr) && decide (hr ≤ 20)
    | none => false

/-- Spec-side predicate: some retained hour of the given parallel arrays
carries a rain probability value at least 30. -/
def specHighRainAt (today : String) (ts : List String)
    (rains : List (Option ℚ)) : Prop :=
  ∃ i t, ts.get? i = some t ∧ retainedB today t = true ∧
    ∃ q, rains.getD i none = some q ∧ 30 ≤ q

/-- Spec-side predicate: some configured location has a retained hour
with rain probability at least 30 in its fetched forecast. -/
def specAnyHighRain (fetch : ℚ → ℚ → Except PyErr ApiResponse)
    (today : String) (locs : List Location) : Prop :=
  ∃ loc ∈ locs, ∃ resp, fetch loc.lat loc.lon = .ok resp ∧
    specHighRainAt today (timesOf resp) (rainsOf resp)

/-- The leading character of the rain emoji (U+1F326); tracking its
absence from the other message material decides emoji occurrence. -/
def rainHead : Char := '🌦'

/-- `avoidsL c l`: no character of `l` is `c`. -/
def avoidsL (c : Char) (l : List Char) : Bool :=
  l.all (fun x => x != c)

/-! ## Concrete sample inputs used to instantiate the theorems -/

/-- A location named Home (coordinates are irrelevant to the builder). -/
def homeLoc : Location := ⟨"Home", 0, 0⟩

/-- The single-entry hourly response of the specification example. -/
def sampleResp : ApiResponse :=
  ⟨some ⟨some ["2024-01-01T09:00"], some [some 25], some [some 10]⟩⟩

/-- A fetch returning `sampleResp` everywhere. -/
def sampleFetch : ℚ → ℚ → Except PyErr ApiResponse := fun _ _ => .ok sampleResp

/-- Like `sampleResp` but with rain probability 80 (above threshold). -/
def highResp : ApiResponse :=
  ⟨some ⟨some ["2024-01-01T09:00"], some [some 25], some [some 80]⟩⟩

/-- A fetch returning `highResp` everywhere. -/
def highFetch : ℚ → ℚ → Except PyErr ApiResponse := fun _ _ => .ok highResp

/-- Like `sampleResp` but with a null temperature value. -/
def noTempResp : ApiResponse :=
  ⟨some ⟨some ["2024-01-01T09:00"], some [none], some [some 10]⟩⟩

/-- Like `sampleResp` but with a null rain-probability value. -/
def nullRainResp : ApiResponse :=
  ⟨some ⟨some ["2024-01-01T09:00"], some [some 25], some [none]⟩⟩

/-- Like `sampleResp` but with an empty rain-probability array. -/
def shortRainResp : ApiResponse :=
  ⟨some ⟨some ["2024-01-01T09:00"], some [some 25], some []⟩⟩

/-- A response with no hourly data at all. -/
def emptyResp : ApiResponse := ⟨none⟩

/-- Like `sampleResp` but with temperature 25.6 and rain probability
29.5 (exercising the rounding). -/
def fracResp : ApiResponse :=
  ⟨some ⟨some ["2024-01-01T09:00"], some [some (mkRat 128 5)],
    some [some (mkRat 59 2)]⟩⟩

/-! ## Scheduler arithmetic -/

theorem computeTarget_eq (now : ℕ) :
    computeTarget now =
      if now / 86400 * 86400 + 6 * 3600 ≤ now
      then now / 86400 * 86400 + 6 * 3600 + 86400
      else now / 86400 * 86400 + 6 * 3600 := rfl

theorem computeTarget_gt (now : ℕ) : now < computeTarget now := by
  rw [computeTarget_eq]
  split <;> omega

theorem computeTarget_mod (now : ℕ) : computeTarget now % 86400 = 21600 := by
  rw [computeTarget_eq]
  split <;> omega

theorem computeTarget_step (now : ℕ) :
    computeTarget (computeTarget now + 10) = computeTarget now + 86400 := by
  simp only [computeTarget_eq]
  split <;> split <;> omega

/-- Claim C5: the computed next-run time is strictly later than the
current time, and falls at exactly 06:00 (= second 21600 of the local
day) in the target timezone, rolling to the next day when 06:00 has
already passed today. -/
theorem spec_C5 (now : ℕ) :
    now < computeTarget now ∧ computeTarget now % 86400 = 21600 :=
  ⟨computeTarget_gt now, computeTarget_mod now⟩

/-- Claim C6: a delivery failure does not terminate the loop: the
iteration still continues, after the short fixed 10 second delay, and
the next target computed from the post-failure time is again a valid
strictly-future 06:00 target (the next day, in fact). -/
theorem spec_C6 (now : ℕ) (msg : String) :
    loopIteration now (.ok msg) false = .continued (computeTarget now + 10) ∧
    computeTarget now + 10 < computeTarget (computeTarget now + 10) ∧
    computeTarget (computeTarget now + 10) % 86400 = 21600 ∧
    computeTarget (computeTarget now + 10) = computeTarget now + 86400 :=
  ⟨rfl, computeTarget_gt _, computeTarget_mod _, computeTarget_step now⟩

/-- Claim C1, counterexample: a fetch failure during message
construction is not caught by the loop iteration; at this concrete
input the iteration crashes rather than continuing to a next scheduled
time. -/
theorem spec_C1_cex :
    loopIteration 0 (.error .fetchError) true = .crashed .fetchError ∧
    ¬ ∃ n, loopIteration 0 (.error .fetchError) true = .continued n := by
  refine ⟨rfl, ?_⟩
  rintro ⟨n, h⟩
  simp [loopIteration] at h

/-- Claim C1 as amended: a `FetchError` raised while fetching a
forecast during message construction is not caught inside the loop: it
propagates out of `build_message` and out of the `while` loop (whose
only handler is `except KeyboardInterrupt`), terminating the scheduler
instead of skipping the cycle. -/
theorem spec_C1_amended :
    (∀ (now : ℕ) (e : PyErr) (sendOk : Bool),
      loopIteration now (.error e) sendOk = .crashed e) ∧
    (∀ (fetch : ℚ → ℚ → Except PyErr ApiResponse) (nowStr today : String)
      (loc : Location) (locs : List Location) (e : PyErr),
      fetch loc.lat loc.lon = .error e →
      build_message fetch nowStr today (loc :: locs) = .error e) := by
  refine ⟨fun _ _ _ => rfl, fun fetch nowStr today loc locs e h => ?_⟩
  simp [build_message, gatherData, h]

/-- Witness for `spec_C1_amended` at a concrete input. -/
theorem spec_C1_amended_witness :
    build_message (fun _ _ => .error .fetchError) "x" "2024-01-01"
      (homeLoc :: []) = .error .fetchError :=
  spec_C1_amended.2 (fun _ _ => .error .fetchError) "x" "2024-01-01"
    homeLoc [] .fetchError rfl

/-- Claim C7: on the specification example input (single location Home,
one hourly entry at 09:00 with temperature 25 and rain probability 10,
today being 2024-01-01) the built message consists of the date line with
the sun emoji, then a Home block with exactly the single data line
`09:00 - 25°C, 10%`, and the rain emoji does not occur anywhere in the
message. -/
theorem spec_C7 :
    build_message sampleFetch "Monday, January 1, 2024" "2024-01-01" [homeLoc]
      = .ok "Monday, January 1, 2024 ☀️\n\nHome:\n09:00 - 25°C, 10%\n\n" ∧
    containsSub rainEmoji.data
      ("Monday, January 1, 2024 ☀️\n\nHome:\n09:00 - 25°C, 10%\n\n").data
      = false := by
  exact ⟨by decide, by decide⟩

/-! ## String and character lemmas -/

theorem avoidsL_iff {c : Char} {l : List Char} :
    avoidsL c l = true ↔ ∀ x ∈ l, x ≠ c := by
  simp [avoidsL, List.all_eq_true]

theorem avoidsL_append {c : Char} {l₁ l₂ : List Char} :
    avoidsL c (l₁ ++ l₂) = (avoidsL c l₁ && avoidsL c l₂) := by
  simp [avoidsL]

theorem avoidsL_of_subset {c : Char} {l₁ l₂ : List Char}
    (hsub : l₁ ⊆ l₂) (h : avoidsL c l₂ = true) : avoidsL c l₁ = true :=
  avoidsL_iff.mpr fun x hx => avoidsL_iff.mp h x (hsub hx)

theorem listLeadsWith_self_append (p v : List Char) :
    listLeadsWith p (p ++ v) = true := by
  induction p with
  | nil => rfl
  | cons a as ih => simp [listLeadsWith, ih]

theorem containsSub_of_leads {p l : List Char}
    (h : listLeadsWith p l = true) : containsSub p l = true := by
  cases l with
  | nil =>
    cases p with
    | nil => rfl
    | cons a as => simp [listLeadsWith] at h
  | cons c rest => simp [containsSub, h]

theorem containsSub_append_left {p l : List Char} (u : List Char)
    (h : containsSub p l = true) : containsSub p (u ++ l) = true := by
  induction u with
  | nil => exact h
  | cons a as ih => simp [containsSub, ih]

theorem containsSub_self (p u v : List Char) :
    containsSub p (u ++ (p ++ v)) = true :=
  containsSub_append_left u (containsSub_of_leads (listLeadsWith_self_append p v))

theorem leads_head_mem {c : Char} {p l : List Char}
    (h : listLeadsWith (c :: p) l = true) : c ∈ l := by
  cases l with
  | nil => simp [listLeadsWith] at h
  | cons d rest =>
    simp only [listLeadsWith, Bool.and_eq_true, beq_iff_eq] at h
    simp [h.1]

theorem containsSub_head_mem {c : Char} {p l : List Char}
    (h : containsSub (c :: p) l = true) : c ∈ l := by
  induction l with
  | nil => simp [containsSub] at h
  | cons d rest ih =>
    simp only [containsSub, Bool.or_eq_true] at h
    rcases h with h | h
    · exact leads_head_mem h
    · exact List.mem_cons_of_mem d (ih h)

theorem containsSub_false_of_avoids {c : Char} {p l : List Char}
    (h : avoidsL c l = true) : containsSub (c :: p) l = false := by
  by_contra hc
  have : containsSub (c :: p) l = true := by
    cases hcc : containsSub (c :: p) l
    · exact absurd hcc hc
    · rfl
  exact absurd rfl (avoidsL_iff.mp h c (containsSub_head_mem this))

theorem concatAll_append (l₁ l₂ : List String) :
    concatAll (l₁ ++ l₂) = concatAll l₁ ++ concatAll l₂ := by
  induction l₁ with
  | nil => simp [concatAll]
  | cons s rest ih => simp [concatAll, ih, String.append_assoc]

/-! ## Digit rendering lemmas -/

theorem digitChar10_ne_rainHead (n : ℕ) : digitChar10 n ≠ rainHead := by
  unfold digitChar10
  split <;> decide

theorem natDigitsGo_avoids (fuel n : ℕ) :
    avoidsL rainHead (natDigitsGo fuel n) = true := by
  induction fuel generalizing n with
  | zero => rfl
  | succ fuel ih =>
    unfold natDigitsGo
    split
    · exact avoidsL_iff.mpr fun x hx => by
        simp at hx
        exact hx ▸ digitChar10_ne_rainHead n
    · rw [avoidsL_append, ih (n / 10), Bool.true_and]
      exact avoidsL_iff.mpr fun x hx => by
        simp at hx
        exact hx ▸ digitChar10_ne_rainHead (n % 10)

theorem mk_data (l : List Char) : (String.mk l).data = l := rfl

theorem renderInt_avoids (i : ℤ) :
    avoidsL rainHead (renderInt i).data = true := by
  unfold renderInt natDigits
  split
  · rw [String.data_append, mk_data, avoidsL_append, natDigitsGo_avoids]
    decide
  · rw [mk_data]
    exact natDigitsGo_avoids _ _

theorem sliceStr_subset (s : String) (a b : Nat) :
    (sliceStr s a b).data ⊆ s.data := by
  unfold sliceStr
  rw [mk_data]
  exact fun x hx =>
    (List.drop_subset a s.data) ((List.take_subset _ _) hx)

theorem rOpt_avoids (v : Option ℚ) :
    avoidsL rainHead (rOpt v).data = true := by
  cases v with
  | none => decide
  | some q => exact renderInt_avoids _

theorem renderLine_avoids {t : String} (ht : avoidsL rainHead t.data = true)
    (temp rain : Option ℚ) :
    avoidsL rainHead (renderLine t temp rain).data = true := by
  unfold renderLine
  simp only [String.data_append, avoidsL_append, Bool.and_eq_true]
  repeat' apply And.intro
  all_goals first
    | exact avoidsL_of_subset (sliceStr_subset t 11 16) ht
    | exact rOpt_avoids temp
    | exact rOpt_avoids rain
    | decide

theorem renderLines_avoids {ts : List String}
    (hts : ∀ t ∈ ts, avoidsL rainHead t.data = true) :
    ∀ temps rains, avoidsL rainHead (renderLines ts temps rains).data = true := by
  induction ts with
  | nil => intro temps rains; rfl
  | cons t rest ih =>
    intro temps rains
    unfold renderLines
    rw [String.data_append, avoidsL_append,
      renderLine_avoids (hts t (List.mem_cons_self t rest)) _ _,
      ih (fun x hx => hts x (List.mem_cons_of_mem t hx)) temps.tail rains.tail]
    rfl

theorem renderBlock_avoids {ld : LocData}
    (hn : avoidsL rainHead ld.name.data = true)
    (hts : ∀ t ∈ ld.times, avoidsL rainHead t.data = true) :
    avoidsL rainHead (renderBlock ld).data = true := by
  unfold renderBlock
  simp only [String.data_append, avoidsL_append, Bool.and_eq_true]
  repeat' apply And.intro
  all_goals first
    | exact hn
    | exact renderLines_avoids hts ld.temps ld.rains
    | decide

theorem concatAll_blocks_avoids {lds : List LocData}
    (h : ∀ ld ∈ lds, avoidsL rainHead (renderBlock ld).data = true) :
    avoidsL rainHead (concatAll (lds.map renderBlock)).data = true := by
  induction lds with
  | nil => decide
  | cons ld rest ih =>
    simp only [List.map_cons, concatAll]
    rw [String.data_append, avoidsL_append,
      h ld (List.mem_cons_self ld rest),
      ih (fun x hx => h x (List.mem_cons_of_mem ld hx))]
    rfl

/-! ## Inversion of the filtering loop -/

theorem getD_tail {α : Type} (l : List α) (i : ℕ) (d : α) :
    l.getD (i + 1) d = l.tail.getD i d := by
  cases l <;> simp [List.getD]

theorem filterGo_nil (today : String) (temps rains : List (Option ℚ)) :
    filterGo today [] temps rains = .ok ⟨[], [], [], false⟩ := rfl

theorem filterGo_cons (today t : String) (ts : List String)
    (temps rains : List (Option ℚ)) :
    filterGo today (t :: ts) temps rains =
      (if strStartsWith t today then
        match pyInt (sliceStr t 11 13) with
        | none => .error .valueError
        | some hr =>
          if 8 ≤ hr ∧ hr ≤ 20 then
            match rains with
            | [] => .error .indexError
            | none :: _ => .error .typeError
            | some q :: rs =>
              match filterGo today ts temps.tail rs with
              | .error e => .error e
              | .ok res =>
                .ok ⟨t :: res.ftimes, (temps.head?.getD none) :: res.ftemps,
                     some q :: res.frains, (decide (30 ≤ q) || res.flag)⟩
          else filterGo today ts temps.tail rains.tail
      else filterGo today ts temps.tail rains.tail) := rfl

theorem filterGo_cons_inv {today t : String} {ts : List String}
    {temps rains : List (Option ℚ)} {res : FilterRes}
    (h : filterGo today (t :: ts) temps rains = .ok res) :
    (strStartsWith t today = false ∧
      filterGo today ts temps.tail rains.tail = .ok res) ∨
    (∃ hr : ℤ, strStartsWith t today = true ∧
      pyInt (sliceStr t 11 13) = some hr ∧ ¬(8 ≤ hr ∧ hr ≤ 20) ∧
      filterGo today ts temps.tail rains.tail = .ok res) ∨
    (∃ (hr : ℤ) (q : ℚ) (rs : List (Option ℚ)) (res1 : FilterRes),
      strStartsWith t today = true ∧
      pyInt (sliceStr t 11 13) = some hr ∧ (8 ≤ hr ∧ hr ≤ 20) ∧
      rains = some q :: rs ∧
      filterGo today ts temps.tail rs = .ok res1 ∧
      res = ⟨t :: res1.ftimes, temps.head?.getD none :: res1.ftemps,
        some q :: res1.frains, (decide (30 ≤ q) || res1.flag)⟩) := by
  rw [filterGo_cons] at h
  split at h
  · rename_i hs
    split at h
    · exact absurd h (by simp)
    · rename_i hr hp
      split at h
      · rename_i hrange
        split at h
        · exact absurd h (by simp)
        · exact absurd h (by simp)
        · rename_i q rs
          split at h
          · exact absurd h (by simp)
          · rename_i res1 hrec
            right; right
            exact ⟨hr, q, rs, res1, hs, hp, hrange, rfl, hrec,
              (Except.ok.inj h).symm⟩
      · rename_i hrange
        right; left
        exact ⟨hr, hs, hp, hrange, h⟩
  · rename_i hs
    left
    exact ⟨by simpa using hs, h⟩

/-! ## Retention predicate computations -/

theorem retainedB_false_notStarts {today t : String}
    (h : strStartsWith t today = false) : retainedB today t = false := by
  simp [retainedB, h]

theorem retainedB_true_of {today t : String} {hr : ℤ}
    (hs : strStartsWith t today = true)
    (hp : pyInt (sliceStr t 11 13) = some hr)
    (hrange : 8 ≤ hr ∧ hr ≤ 20) : retainedB today t = true := by
  simp [retainedB, hs, hp]
  omega

theorem retainedB_false_range {today t : String} {hr : ℤ}
    (hp : pyInt (sliceStr t 11 13) = some hr)
    (hrange : ¬(8 ≤ hr ∧ hr ≤ 20)) : retainedB today t = false := by
  simp [retainedB, hp]
  omega

/-! ## Structural facts about the filtering loop -/

theorem filterGo_ftimes {today : String} {ts : List String} :
    ∀ {temps rains : List (Option ℚ)} {res : FilterRes},
    filterGo today ts temps rains = .ok res →
    res.ftimes = ts.filter (retainedB today) := by
  induction ts with
  | nil =>
    intro temps rains res h
    rw [filterGo_nil] at h
    rw [← Except.ok.inj h]
    rfl
  | cons t ts ih =>
    intro temps rains res h
    rcases filterGo_cons_inv h with
      ⟨hs, hrec⟩ | ⟨hr, hs, hp, hrange, hrec⟩ |
      ⟨hr, q, rs, res1, hs, hp, hrange, hrains, hrec, hres⟩
    · rw [List.filter_cons, retainedB_false_notStarts hs]
      exact ih hrec
    · rw [List.filter_cons, retainedB_false_range hp hrange]
      exact ih hrec
    · rw [List.filter_cons, retainedB_true_of hs hp hrange, hres]
      simp only [if_pos]
      rw [ih hrec]

theorem filterGo_lengths {today : String} {ts : List String} :
    ∀ {temps rains : List (Option ℚ)} {res : FilterRes},
    filterGo today ts temps rains = .ok res →
    res.ftemps.length = res.ftimes.length ∧
    res.frains.length = res.ftimes.length := by
  induction ts with
  | nil =>
    intro temps rains res h
    rw [filterGo_nil] at h
    rw [← Except.ok.inj h]
    exact ⟨rfl, rfl⟩
  | cons t ts ih =>
    intro temps rains res h
    rcases filterGo_cons_inv h with
      ⟨hs, hrec⟩ | ⟨hr, hs, hp, hrange, hrec⟩ |
      ⟨hr, q, rs, res1, hs, hp, hrange, hrains, hrec, hres⟩
    · exact ih hrec
    · exact ih hrec
    · rw [hres]
      have := ih hrec
      simp only [List.length_cons]
      omega

theorem specHighRainAt_nil (today : String) (rains : List (Option ℚ)) :
    ¬ specHighRainAt today [] rains := by
  rintro ⟨i, t0, hget, _⟩
  simp at hget

theorem specHighRainAt_cons (today t : String) (ts : List String)
    (rains : List (Option ℚ)) :
    specHighRainAt today (t :: ts) rains ↔
      ((retainedB today t = true ∧ ∃ q, rains.getD 0 none = some q ∧ 30 ≤ q) ∨
        specHighRainAt today ts rains.tail) := by
  constructor
  · rintro ⟨i, t0, hget, hret, q, hq, h30⟩
    cases i with
    | zero =>
      left
      have ht0 : t0 = t := by simpa using hget.symm
      exact ⟨ht0 ▸ hret, q, hq, h30⟩
    | succ i =>
      right
      exact ⟨i, t0, by simpa using hget, hret, q, by rw [← getD_tail]; exact hq, h30⟩
  · rintro (⟨hret, q, hq, h30⟩ | ⟨i, t0, hget, hret, q, hq, h30⟩)
    · exact ⟨0, t, rfl, hret, q, hq, h30⟩
    · exact ⟨i + 1, t0, by simpa using hget, hret, q, by rw [getD_tail]; exact hq, h30⟩

theorem filterGo_flag {today : String} {ts : List String} :
    ∀ {temps rains : List (Option ℚ)} {res : FilterRes},
    filterGo today ts temps rains = .ok res →
    (res.flag = true ↔ specHighRainAt today ts rains) := by
  induction ts with
  | nil =>
    intro temps rains res h
    rw [filterGo_nil] at h
    rw [← Except.ok.inj h]
    simpa using specHighRainAt_nil today rains
  | cons t ts ih =>
    intro temps rains res h
    rcases filterGo_cons_inv h with
      ⟨hs, hrec⟩ | ⟨hr, hs, hp, hrange, hrec⟩ |
      ⟨hr, q, rs, res1, hs, hp, hrange, hrains, hrec, hres⟩
    · rw [specHighRainAt_cons, retainedB_false_notStarts hs]
      simp only [false_and, false_or, Bool.false_eq_true]
      exact ih hrec
    · rw [specHighRainAt_cons, retainedB_false_range hp hrange]
      simp only [false_and, false_or, Bool.false_eq_true]
      exact ih hrec
    · rw [specHighRainAt_cons, retainedB_true_of hs hp hrange, hres, hrains]
      simp only [List.getD, List.tail_cons, true_and, Bool.or_eq_true,
        decide_eq_true_eq]
      rw [ih hrec]
      constructor
      · rintro (h30 | hsp)
        · exact Or.inl ⟨q, rfl, h30⟩
        · exact Or.inr hsp
      · rintro (⟨q2, hq2, h30⟩ | hsp)
        · exact Or.inl (by cases hq2; exact h30)
        · exact Or.inr hsp

theorem filterGo_rain_present {today : String} {ts : List String} :
    ∀ {temps rains : List (Option ℚ)} {res : FilterRes},
    filterGo today ts temps rains = .ok res →
    ∀ (i : ℕ) (t0 : String), ts.get? i = some t0 →
    retainedB today t0 = true → ∃ q, rains.getD i none = some q := by
  induction ts with
  | nil =>
    intro temps rains res _ i t0 hget
    simp at hget
  | cons t ts ih =>
    intro temps rains res h i t0 hget hret
    rcases filterGo_cons_inv h with
      ⟨hs, hrec⟩ | ⟨hr, hs, hp, hrange, hrec⟩ |
      ⟨hr, q, rs, res1, hs, hp, hrange, hrains, hrec, hres⟩
    · cases i with
      | zero =>
        have ht0 : t0 = t := by simpa using hget.symm
        rw [ht0, retainedB_false_notStarts hs] at hret
        exact absurd hret (by simp)
      | succ i =>
        rw [getD_tail]
        exact ih hrec i t0 (by simpa using hget) hret
    · cases i with
      | zero =>
        have ht0 : t0 = t := by simpa using hget.symm
        rw [ht0, retainedB_false_range hp hrange] at hret
        exact absurd hret (by simp)
      | succ i =>
        rw [getD_tail]
        exact ih hrec i t0 (by simpa using hget) hret
    · cases i with
      | zero => exact ⟨q, by rw [hrains]; rfl⟩
      | succ i =>
        rw [getD_tail, hrains, List.tail_cons]
        exact ih hrec i t0 (by simpa using hget) hret

theorem filterGo_anyTemps {today : String} {ts : List String} :
    ∀ {temps rains : List (Option ℚ)} {res : FilterRes},
    filterGo today ts temps rains = .ok res →
    ∀ temps2, ∃ res2, filterGo today ts temps2 rains = .ok res2 := by
  induction ts with
  | nil => exact fun _ _ => ⟨⟨[], [], [], false⟩, rfl⟩
  | cons t ts ih =>
    intro temps rains res h temps2
    rcases filterGo_cons_inv h with
      ⟨hs, hrec⟩ | ⟨hr, hs, hp, hrange, hrec⟩ |
      ⟨hr, q, rs, res1, hs, hp, hrange, hrains, hrec, hres⟩
    · obtain ⟨res2, h2⟩ := ih hrec temps2.tail
      exact ⟨res2, by rw [filterGo_cons, hs]; simpa using h2⟩
    · obtain ⟨res2, h2⟩ := ih hrec temps2.tail
      refine ⟨res2, ?_⟩
      rw [filterGo_cons, hs]
      simp only [if_true, hp, if_neg hrange]
      simpa using h2
    · obtain ⟨res2, h2⟩ := ih hrec temps2.tail
      refine ⟨⟨t :: res2.ftimes, temps2.head?.getD none :: res2.ftemps,
        some q :: res2.frains, (decide (30 ≤ q) || res2.flag)⟩, ?_⟩
      rw [filterGo_cons, hs, hrains]
      simp only [if_true, hp, if_pos hrange, h2]

/-! ## Inversion of the fetch-and-filter loop and of the builder -/

theorem gatherData_nil (fetch : ℚ → ℚ → Except PyErr ApiResponse)
    (today : String) : gatherData fetch today [] = .ok ([], false) := rfl

theorem gatherData_cons (fetch : ℚ → ℚ → Except PyErr ApiResponse)
    (today : String) (loc : Location) (rest : List Location) :
    gatherData fetch today (loc :: rest) =
      (match fetch loc.lat loc.lon with
      | .error e => .error e
      | .ok data =>
        match processResponse today data with
        | .error e => .error e
        | .ok res =>
          match gatherData fetch today rest with
          | .error e => .error e
          | .ok (lds, flag) =>
            .ok (⟨loc.name, res.ftimes, res.ftemps, res.frains⟩ :: lds,
                 res.flag || flag)) := rfl

theorem gatherData_cons_inv {fetch : ℚ → ℚ → Except PyErr ApiResponse}
    {today : String} {loc : Location} {rest : List Location}
    {lds : List LocData} {b : Bool}
    (h : gatherData fetch today (loc :: rest) = .ok (lds, b)) :
    ∃ resp res lds2 b2,
      fetch loc.lat loc.lon = .ok resp ∧
      processResponse today resp = .ok res ∧
      gatherData fetch today rest = .ok (lds2, b2) ∧
      lds = ⟨loc.name, res.ftimes, res.ftemps, res.frains⟩ :: lds2 ∧
      b = (res.flag || b2) := by
  rw [gatherData_cons] at h
  split at h
  · exact absurd h (by simp)
  · rename_i resp hfetch
    split at h
    · exact absurd h (by simp)
    · rename_i res hres
      split at h
      · exact absurd h (by simp)
      · rename_i p lds2 b2 hrest
        obtain ⟨h1, h2⟩ := Prod.mk.injEq .. ▸ (Except.ok.inj h)
        exact ⟨resp, res, lds2, b2, hfetch, hres, hrest, h1.symm, h2.symm⟩

theorem specAnyHighRain_nil (fetch : ℚ → ℚ → Except PyErr ApiResponse)
    (today : String) : ¬ specAnyHighRain fetch today [] := by
  rintro ⟨loc, hmem, _⟩
  simp at hmem

theorem specAnyHighRain_cons (fetch : ℚ → ℚ → Except PyErr ApiResponse)
    (today : String) (loc : Location) (rest : List Location) :
    specAnyHighRain fetch today (loc :: rest) ↔
      ((∃ resp, fetch loc.lat loc.lon = .ok resp ∧
        specHighRainAt today (timesOf resp) (rainsOf resp)) ∨
        specAnyHighRain fetch today rest) := by
  unfold specAnyHighRain
  constructor
  · rintro ⟨l, hmem, resp, hf, hsp⟩
    rcases List.mem_cons.mp hmem with rfl | hmem2
    · exact Or.inl ⟨resp, hf, hsp⟩
    · exact Or.inr ⟨l, hmem2, resp, hf, hsp⟩
  · rintro (⟨resp, hf, hsp⟩ | ⟨l, hmem2, resp, hf, hsp⟩)
    · exact ⟨loc, List.mem_cons_self loc rest, resp, hf, hsp⟩
    · exact ⟨l, List.mem_cons_of_mem loc hmem2, resp, hf, hsp⟩

/-- The relation tying a configured location to its entry in
`location_data`. -/
def locDataRel (fetch : ℚ → ℚ → Except PyErr ApiResponse) (today : String)
    (loc : Location) (ld : LocData) : Prop :=
  ld.name = loc.name ∧
  ∃ resp res, fetch loc.lat loc.lon = .ok resp ∧
    processResponse today resp = .ok res ∧
    ld.times = res.ftimes ∧ ld.temps = res.ftemps ∧ ld.rains = res.frains

theorem gatherData_spec {fetch : ℚ → ℚ → Except PyErr ApiResponse}
    {today : String} {locs : List Location} :
    ∀ {lds : List LocData} {b : Bool},
    gatherData fetch today locs = .ok (lds, b) →
    List.Forall₂ (locDataRel fetch today) locs lds ∧
    (b = true ↔ specAnyHighRain fetch today locs) := by
  induction locs with
  | nil =>
    intro lds b h
    rw [gatherData_nil] at h
    obtain ⟨h1, h2⟩ := Prod.mk.injEq .. ▸ (Except.ok.inj h)
    refine ⟨h1 ▸ List.Forall₂.nil, ?_⟩
    rw [← h2]
    simpa using specAnyHighRain_nil fetch today
  | cons loc rest ih =>
    intro lds b h
    obtain ⟨resp, res, lds2, b2, hfetch, hres, hrest, hlds, hb⟩ :=
      gatherData_cons_inv h
    obtain ⟨ihrel, ihflag⟩ := ih hrest
    constructor
    · rw [hlds]
      exact List.Forall₂.cons
        ⟨rfl, resp, res, hfetch, hres, rfl, rfl, rfl⟩ ihrel
    · rw [hb, specAnyHighRain_cons]
      constructor
      · intro hor
        rcases Bool.or_eq_true _ _ ▸ hor with hf | hb2
        · exact Or.inl ⟨resp, hfetch, (filterGo_flag hres).mp hf⟩
        · exact Or.inr (ihflag.mp hb2)
      · rintro (⟨resp2, hf2, hsp⟩ | hsp)
        · have : resp2 = resp := by
            have := hf2 ▸ hfetch
            exact (Except.ok.inj this)
          rw [this] at hsp
          have : res.flag = true := (filterGo_flag hres).mpr hsp
          simp [this]
        · simp [ihflag.mpr hsp]

theorem build_message_ok_inv {fetch : ℚ → ℚ → Except PyErr ApiResponse}
    {nowStr today : String} {locs : List Location} {msg : String}
    (h : build_message fetch nowStr today locs = .ok msg) :
    ∃ lds b, gatherData fetch today locs = .ok (lds, b) ∧
      msg = nowStr ++ " " ++ (if b then rainEmoji else sunEmoji) ++ "\n\n" ++
        concatAll (lds.map renderBlock) := by
  unfold build_message at h
  split at h
  · exact absurd h (by simp)
  · rename_i p lds b hg
    exact ⟨lds, b, hg, (Except.ok.inj h).symm⟩

/-! ## Rounding: `pythonRound` is round-half-to-even -/

theorem pyFloor_eq_floor (q : ℚ) : pyFloor q = ⌊q⌋ := Rat.floor_def.symm

theorem pythonRound_eq (q : ℚ) :
    pythonRound q =
      if 2 * (q.num - pyFloor q * (q.den : ℤ)) < (q.den : ℤ) then pyFloor q
      else if (q.den : ℤ) < 2 * (q.num - pyFloor q * (q.den : ℤ)) then pyFloor q + 1
      else if pyFloor q % 2 = 0 then pyFloor q else pyFloor q + 1 := rfl

theorem rnum_cast (q : ℚ) :
    ((q.num - ⌊q⌋ * (q.den : ℤ) : ℤ) : ℚ) = (q - ⌊q⌋) * (q.den : ℚ) := by
  have hden0 : ((q.den : ℚ)) ≠ 0 := by
    exact_mod_cast q.den_ne_zero
  have hnum : (q.num : ℚ) = q * (q.den : ℚ) := by
    nth_rewrite 2 [← Rat.num_div_den q]
    rw [div_mul_cancel₀ _ hden0]
  push_cast
  rw [hnum]
  ring

theorem cast_twice_rnum (q : ℚ) :
    ((2 * (q.num - ⌊q⌋ * (q.den : ℤ)) : ℤ) : ℚ) =
      2 * ((q - ⌊q⌋) * (q.den : ℚ)) := by
  rw [Int.cast_mul, rnum_cast]
  norm_num

theorem cast_den_eq (q : ℚ) : (((q.den : ℤ)) : ℚ) = (q.den : ℚ) := by
  push_cast
  rfl

theorem twice_rnum_lt_iff (q : ℚ) :
    (2 * (q.num - ⌊q⌋ * (q.den : ℤ)) < (q.den : ℤ)) ↔ q - ⌊q⌋ < 1/2 := by
  have hden : (0 : ℚ) < (q.den : ℚ) := by exact_mod_cast q.pos
  constructor
  · intro h
    have h2 : ((2 * (q.num - ⌊q⌋ * (q.den : ℤ)) : ℤ) : ℚ) < ((q.den : ℤ) : ℚ) := by
      exact_mod_cast h
    rw [cast_twice_rnum, cast_den_eq] at h2
    nlinarith
  · intro h
    have h2 : ((2 * (q.num - ⌊q⌋ * (q.den : ℤ)) : ℤ) : ℚ) < ((q.den : ℤ) : ℚ) := by
      rw [cast_twice_rnum, cast_den_eq]
      nlinarith
    exact_mod_cast h2

theorem den_lt_twice_rnum_iff (q : ℚ) :
    ((q.den : ℤ) < 2 * (q.num - ⌊q⌋ * (q.den : ℤ))) ↔ 1/2 < q - ⌊q⌋ := by
  have hden : (0 : ℚ) < (q.den : ℚ) := by exact_mod_cast q.pos
  constructor
  · intro h
    have h2 : ((q.den : ℤ) : ℚ) < ((2 * (q.num - ⌊q⌋ * (q.den : ℤ)) : ℤ) : ℚ) := by
      exact_mod_cast h
    rw [cast_twice_rnum, cast_den_eq] at h2
    nlinarith
  · intro h
    have h2 : ((q.den : ℤ) : ℚ) < ((2 * (q.num - ⌊q⌋ * (q.den : ℤ)) : ℤ) : ℚ) := by
      rw [cast_twice_rnum, cast_den_eq]
      nlinarith
    exact_mod_cast h2

theorem pythonRound_cases (q : ℚ) :
    (q - ⌊q⌋ < 1/2 ∧ pythonRound q = ⌊q⌋) ∨
    (1/2 < q - ⌊q⌋ ∧ pythonRound q = ⌊q⌋ + 1) ∨
    (q - ⌊q⌋ = 1/2 ∧
      pythonRound q = (if ⌊q⌋ % 2 = 0 then ⌊q⌋ else ⌊q⌋ + 1)) := by
  have hden : (0 : ℚ) < (q.den : ℚ) := by exact_mod_cast q.pos
  rw [pythonRound_eq, pyFloor_eq_floor]
  split
  · rename_i hc
    exact Or.inl ⟨(twice_rnum_lt_iff q).mp hc, rfl⟩
  · rename_i hc1
    split
    · rename_i hc2
      exact Or.inr (Or.inl ⟨(den_lt_twice_rnum_iff q).mp hc2, rfl⟩)
    · rename_i hc2
      refine Or.inr (Or.inr ⟨?_, rfl⟩)
      have h1 : ¬(q - ⌊q⌋ < 1/2) := fun hcon => hc1 ((twice_rnum_lt_iff q).mpr hcon)
      have h2 : ¬(1/2 < q - ⌊q⌋) := fun hcon => hc2 ((den_lt_twice_rnum_iff q).mpr hcon)
      linarith [lt_trichotomy (q - (⌊q⌋ : ℚ)) (1/2)]

theorem pythonRound_nearest (q : ℚ) :
    |q - (pythonRound q : ℚ)| ≤ 1/2 := by
  have hfl : ((⌊q⌋ : ℤ) : ℚ) ≤ q := Int.floor_le q
  have hfu : q < (⌊q⌋ : ℚ) + 1 := Int.lt_floor_add_one q
  rcases pythonRound_cases q with ⟨hc, he⟩ | ⟨hc, he⟩ | ⟨hc, he⟩
  · rw [he, abs_le]
    constructor <;> linarith
  · rw [he, abs_le]
    push_cast
    constructor <;> linarith
  · rw [he]
    split <;> rw [abs_le] <;> push_cast <;> constructor <;> linarith

theorem pythonRound_tie_even (q : ℚ) (h : q - ⌊q⌋ = 1/2) :
    pythonRound q % 2 = 0 := by
  rcases pythonRound_cases q with ⟨hc, _⟩ | ⟨hc, _⟩ | ⟨_, he⟩
  · exact absurd hc (by rw [h]; exact lt_irrefl _)
  · exact absurd hc (by rw [h]; exact lt_irrefl _)
  · rw [he]
    split
    · assumption
    · rename_i hodd
      omega

/-! ## Claims about missing values (C2) and retention filtering (C4) -/

/-- Claim C2, counterexample: a missing (null, or absent because the
array is shorter) rain-probability value at a retained hour makes
`build_message` raise (TypeError resp. IndexError) at the unguarded
`rains[i] >= 30` comparison of line 59, instead of rendering N/A. -/
theorem spec_C2_cex :
    build_message (fun _ _ => .ok nullRainResp) "x" "2024-01-01" [homeLoc]
      = .error .typeError ∧
    build_message (fun _ _ => .ok shortRainResp) "x" "2024-01-01" [homeLoc]
      = .error .indexError := by
  exact ⟨by decide, by decide⟩

/-- Claim C2 as amended: a missing temperature value at a retained hour
is rendered as N/A and never causes a failure (success of the filtering
loop is independent of the temperature array), but a missing
rain-probability value at a retained hour always causes `build_message`
to raise before any rendering (on success every retained hour has a
present rain value): TypeError for a null value, IndexError for a
too-short array. -/
theorem spec_C2 :
    (∀ (today : String) (ts : List String) (temps rains : List (Option ℚ))
      (res : FilterRes), filterGo today ts temps rains = .ok res →
      ∀ temps2, ∃ res2, filterGo today ts temps2 rains = .ok res2) ∧
    (∀ (today : String) (ts : List String) (temps rains : List (Option ℚ))
      (res : FilterRes), filterGo today ts temps rains = .ok res →
      ∀ (i : ℕ) (t0 : String), ts.get? i = some t0 →
      retainedB today t0 = true → ∃ q, rains.getD i none = some q) ∧
    build_message (fun _ _ => .ok noTempResp) "x" "2024-01-01" [homeLoc]
      = .ok "x ☀️\n\nHome:\n09:00 - N/A°C, 10%\n\n" ∧
    build_message (fun _ _ => .ok nullRainResp) "x" "2024-01-01" [homeLoc]
      = .error .typeError ∧
    build_message (fun _ _ => .ok shortRainResp) "x" "2024-01-01" [homeLoc]
      = .error .indexError :=
  ⟨fun _ _ _ _ _ h temps2 => filterGo_anyTemps h temps2,
   fun _ _ _ _ _ h i t0 hg hr => filterGo_rain_present h i t0 hg hr,
   by decide, by decide, by decide⟩

/-- Witness for `spec_C2` at a concrete input: the success of the
filtering loop on the sample forces a present rain value at the
retained hour. -/
theorem spec_C2_witness :
    ∃ q, ([some (10 : ℚ)] : List (Option ℚ)).getD 0 none = some q :=
  spec_C2.2.1 "2024-01-01" ["2024-01-01T09:00"] [some 25] [some 10]
    ⟨["2024-01-01T09:00"], [some 25], [some 10], false⟩ (by decide)
    0 "2024-01-01T09:00" (by decide) (by decide)

/-- Claim C4: on every successful build, the message decomposes into
the header and one block per location, and the hourly entries backing
each block are exactly those whose timestamp starts with the current
date and whose hour lies in [8, 20]; an entry failing either condition
is absent from the rendered entries, so no line is emitted for it. -/
theorem spec_C4 (fetch : ℚ → ℚ → Except PyErr ApiResponse)
    (nowStr today : String) (locs : List Location) (msg : String)
    (h : build_message fetch nowStr today locs = .ok msg) :
    ∃ lds b, gatherData fetch today locs = .ok (lds, b) ∧
      msg = nowStr ++ " " ++ (if b then rainEmoji else sunEmoji) ++ "\n\n" ++
        concatAll (lds.map renderBlock) ∧
      List.Forall₂ (fun loc ld =>
        ∃ resp, fetch loc.lat loc.lon = .ok resp ∧
          ld.times = (timesOf resp).filter (retainedB today) ∧
          ∀ t, retainedB today t = false → t ∉ ld.times) locs lds := by
  obtain ⟨lds, b, hg, hmsg⟩ := build_message_ok_inv h
  refine ⟨lds, b, hg, hmsg, ?_⟩
  have hrel := (gatherData_spec hg).1
  refine List.Forall₂.imp ?_ hrel
  rintro loc ld ⟨hname, resp, res, hf, hres, htimes, _, _⟩
  refine ⟨resp, hf, ?_, ?_⟩
  · rw [htimes]
    exact filterGo_ftimes hres
  · intro t hret hmem
    rw [htimes, filterGo_ftimes hres] at hmem
    have := List.of_mem_filter hmem
    simp [hret] at this

/-- Witness for `spec_C4` at the specification example input. -/
theorem spec_C4_witness :
    ∃ lds b, gatherData sampleFetch "2024-01-01" [homeLoc] = .ok (lds, b) := by
  obtain ⟨lds, b, hg, _⟩ := spec_C4 sampleFetch "Monday, January 1, 2024"
    "2024-01-01" [homeLoc]
    "Monday, January 1, 2024 ☀️\n\nHome:\n09:00 - 25°C, 10%\n\n" (by decide)
  exact ⟨lds, b, hg⟩

/-! ## Claim C3: the rain emoji appears iff some retained hour is wet -/

theorem forall₂_mem_right {α β : Type} {R : α → β → Prop}
    {l1 : List α} {l2 : List β} (h : List.Forall₂ R l1 l2) :
    ∀ b ∈ l2, ∃ a ∈ l1, R a b := by
  induction h with
  | nil => intro b hb; simp at hb
  | cons hR hrest ih =>
    intro b hb
    rcases List.mem_cons.mp hb with rfl | hb2
    · exact ⟨_, List.mem_cons_self _ _, hR⟩
    · obtain ⟨a, ha, hra⟩ := ih b hb2
      exact ⟨a, List.mem_cons_of_mem _ ha, hra⟩

theorem rainEmoji_data : rainEmoji.data = rainHead :: ['️'] := by decide

/-- Claim C3: for a successfully built message (over inputs whose date
string, location names and timestamp strings do not themselves contain
the rain-emoji leading character, as every real strftime date, the fixed
names Work and Home, and ISO timestamps do), the rain emoji occurs in
the message if and only if some configured location has a retained hour
(date matching today, hour in [8, 20]) with rain probability at least
30; and when no such hour exists the sun emoji occurs in the message. -/
theorem spec_C3 (fetch : ℚ → ℚ → Except PyErr ApiResponse)
    (nowStr today : String) (locs : List Location) (msg : String)
    (h : build_message fetch nowStr today locs = .ok msg)
    (hNow : avoidsL rainHead nowStr.data = true)
    (hNames : ∀ loc ∈ locs, avoidsL rainHead loc.name.data = true)
    (hTimes : ∀ (la lo : ℚ) (resp : ApiResponse), fetch la lo = .ok resp →
      ∀ t ∈ timesOf resp, avoidsL rainHead t.data = true) :
    (containsSub rainEmoji.data msg.data = true ↔
      specAnyHighRain fetch today locs) ∧
    (¬ specAnyHighRain fetch today locs →
      containsSub sunEmoji.data msg.data = true) := by
  obtain ⟨lds, b, hg, hmsg⟩ := build_message_ok_inv h
  obtain ⟨hrel, hflag⟩ := gatherData_spec hg
  have hldav : ∀ ld ∈ lds, avoidsL rainHead (renderBlock ld).data = true := by
    intro ld hld
    obtain ⟨loc, hloc, hname, resp, res, hf, hres, htimes, _, _⟩ :=
      forall₂_mem_right hrel ld hld
    apply renderBlock_avoids
    · rw [hname]
      exact hNames loc hloc
    · intro t ht
      rw [htimes, filterGo_ftimes hres] at ht
      exact hTimes loc.lat loc.lon resp hf t (List.mem_of_mem_filter ht)
  have havoidmsg : b = false → avoidsL rainHead msg.data = true := by
    intro hb
    rw [hmsg, hb]
    have hsun : (if (false : Bool) then rainEmoji else sunEmoji) = sunEmoji := rfl
    rw [hsun]
    simp only [String.data_append, avoidsL_append, Bool.and_eq_true]
    repeat' apply And.intro
    all_goals first
      | exact hNow
      | exact concatAll_blocks_avoids hldav
      | decide
  have hcontains : ∀ e : String, b = true →
      msg.data = (nowStr.data ++ " ".data) ++ (rainEmoji.data ++
        ("\n\n".data ++ (concatAll (lds.map renderBlock)).data)) := by
    intro _ hb
    rw [hmsg, hb]
    have hre : (if (true : Bool) then rainEmoji else sunEmoji) = rainEmoji := rfl
    rw [hre]
    simp [String.data_append, List.append_assoc]
  constructor
  · constructor
    · intro hcon
      cases hb : b with
      | false =>
        rw [rainEmoji_data, containsSub_false_of_avoids (havoidmsg hb)] at hcon
        exact absurd hcon (by simp)
      | true => exact hflag.mp hb
    · intro hsp
      have hb : b = true := hflag.mpr hsp
      rw [hcontains "" hb]
      exact containsSub_self _ _ _
  · intro hnsp
    have hb : b = false := by
      cases hbb : b with
      | true => exact absurd (hflag.mp hbb) hnsp
      | false => rfl
    have hmsg2 : msg.data = (nowStr.data ++ " ".data) ++ (sunEmoji.data ++
        ("\n\n".data ++ (concatAll (lds.map renderBlock)).data)) := by
      rw [hmsg, hb]
      have hsun : (if (false : Bool) then rainEmoji else sunEmoji) = sunEmoji := rfl
      rw [hsun]
      simp [String.data_append, List.append_assoc]
    rw [hmsg2]
    exact containsSub_self _ _ _

/-- Witness for `spec_C3` at a concrete input with rain probability 80. -/
theorem spec_C3_witness :
    containsSub rainEmoji.data
      ("x " ++ rainEmoji ++ "\n\nHome:\n09:00 - 25°C, 80%\n\n").data = true := by
  have h := spec_C3 highFetch "x" "2024-01-01" [homeLoc]
    ("x " ++ rainEmoji ++ "\n\nHome:\n09:00 - 25°C, 80%\n\n")
    (by decide)
    (by decide)
    (by
      intro loc hl
      rw [List.mem_singleton.mp hl]
      decide)
    (by
      intro la lo resp hresp t ht
      have hre : highResp = resp := Except.ok.inj hresp
      rw [← hre] at ht
      have ht2 : t = "2024-01-01T09:00" := by
        simpa [timesOf, hourlyOf, highResp] using ht
      rw [ht2]
      decide)
  exact h.1.mpr ⟨homeLoc, List.mem_singleton_self _, highResp, rfl,
    0, "2024-01-01T09:00", rfl, by decide, 80, rfl, by decide⟩

/-! ## Claim C8: a location with no hourly data -/

theorem gatherData_append {fetch : ℚ → ℚ → Except PyErr ApiResponse}
    {today : String} : ∀ {l1 l2 : List Location} {lds : List LocData} {b : Bool},
    gatherData fetch today (l1 ++ l2) = .ok (lds, b) →
    ∃ lds1 b1 lds2 b2, gatherData fetch today l1 = .ok (lds1, b1) ∧
      gatherData fetch today l2 = .ok (lds2, b2) ∧
      lds = lds1 ++ lds2 ∧ b = (b1 || b2) := by
  intro l1
  induction l1 with
  | nil =>
    intro l2 lds b h
    exact ⟨[], false, lds, b, gatherData_nil fetch today, h, rfl, rfl⟩
  | cons loc rest ih =>
    intro l2 lds b h
    rw [List.cons_append] at h
    obtain ⟨resp, res, lds2, b2, hfetch, hres, hrest, hlds, hb⟩ :=
      gatherData_cons_inv h
    obtain ⟨ldsA, bA, ldsB, bB, hA, hB, hsplit, hbsplit⟩ := ih hrest
    refine ⟨⟨loc.name, res.ftimes, res.ftemps, res.frains⟩ :: ldsA,
      res.flag || bA, ldsB, bB, ?_, hB, ?_, ?_⟩
    · rw [gatherData_cons]
      simp only [hfetch, hres, hA]
    · rw [hlds, hsplit, List.cons_append]
    · rw [hb, hbsplit, Bool.or_assoc]

theorem renderBlock_empty (name : String) :
    renderBlock ⟨name, [], [], []⟩ = name ++ ":\n\n" := by
  unfold renderBlock renderLines
  rw [String.append_empty, String.append_assoc]
  rw [(by decide : (":\n" ++ "\n" : String) = ":\n\n")]

/-- Claim C8: a location whose fetched response has no hourly data
(missing hourly object, missing time array, or empty time array) is
processed without error into empty filtered arrays and an unset rain
flag, and on a successful build its block in the message is exactly its
name header followed by no data lines and the terminating blank line. -/
theorem spec_C8 (fetch : ℚ → ℚ → Except PyErr ApiResponse)
    (nowStr today : String) (pre post : List Location) (name : String)
    (lat lon : ℚ) (resp : ApiResponse) (msg : String)
    (hfetch : fetch lat lon = .ok resp)
    (hnoh : resp.hourly = none ∨ ∃ hob, resp.hourly = some hob ∧
      (hob.time = none ∨ hob.time = some []))
    (hbuild : build_message fetch nowStr today (pre ++ ⟨name, lat, lon⟩ :: post)
      = .ok msg) :
    processResponse today resp = .ok ⟨[], [], [], false⟩ ∧
    ∃ s1 s2, msg = s1 ++ (name ++ ":\n\n") ++ s2 := by
  have htimes : timesOf resp = [] := by
    rcases hnoh with hn | ⟨hob, hh, ht | ht⟩
    · simp [timesOf, hourlyOf, hn]
    · simp [timesOf, hourlyOf, hh, ht]
    · simp [timesOf, hourlyOf, hh, ht]
  have hproc : processResponse today resp = .ok ⟨[], [], [], false⟩ := by
    unfold processResponse
    rw [htimes]
    exact filterGo_nil today _ _
  refine ⟨hproc, ?_⟩
  obtain ⟨lds, b, hg, hmsg⟩ := build_message_ok_inv hbuild
  obtain ⟨lds1, b1, lds2, b2, hg1, hg2, hlds, hb⟩ := gatherData_append hg
  obtain ⟨resp2, res2, lds3, b3, hf2, hres2, hg3, hlds2, hb2⟩ :=
    gatherData_cons_inv hg2
  have hre : resp2 = resp := by
    rw [hfetch] at hf2
    exact (Except.ok.inj hf2).symm
  rw [hre] at hres2
  have hres0 : res2 = ⟨[], [], [], false⟩ := by
    rw [hproc] at hres2
    exact (Except.ok.inj hres2).symm
  refine ⟨nowStr ++ " " ++ (if b then rainEmoji else sunEmoji) ++ "\n\n" ++
    concatAll (lds1.map renderBlock), concatAll (lds3.map renderBlock), ?_⟩
  rw [hmsg, hlds, hlds2, List.map_append, concatAll_append, List.map_cons]
  simp only [concatAll]
  rw [hres0]
  rw [renderBlock_empty name]
  simp [String.append_assoc]

/-- Witness for `spec_C8` at a concrete input: one Work location with
data and one further location with an hourly-free response. -/
theorem spec_C8_witness :
    processResponse "2024-01-01" emptyResp = .ok ⟨[], [], [], false⟩ := by
  have h := spec_C8
    (fun la _ => if la == 0 then .ok sampleResp else .ok emptyResp)
    "x" "2024-01-01" [⟨"Work", 0, 0⟩] [] "Home" 1 1 emptyResp
    "x ☀️\n\nWork:\n09:00 - 25°C, 10%\n\nHome:\n\n"
    (by decide)
    (Or.inl rfl)
    (by decide)
  exact h.1

/-! ## Claim C9: rendered values use round-half-to-even -/

/-- Claim C9: the value rendered for a present temperature or
rain-probability entry is `pythonRound` of the value, where
`pythonRound` is nearest-integer rounding with ties going to the even
integer (the semantics of the Python builtin `round`); in particular
25.6 renders as 26 (and 29.5 as 30), not as the raw value. -/
theorem spec_C9 :
    (∀ q : ℚ, |q - (pythonRound q : ℚ)| ≤ 1/2) ∧
    (∀ q : ℚ, q - ⌊q⌋ = 1/2 → pythonRound q % 2 = 0) ∧
    (∀ (t : String) (rain : Option ℚ) (q : ℚ),
      renderLine t (some q) rain =
        sliceStr t 11 16 ++ " - " ++ renderInt (pythonRound q) ++ "°C, " ++
          rOpt rain ++ "%\n") ∧
    pythonRound (mkRat 128 5) = 26 ∧
    build_message (fun _ _ => .ok fracResp) "x" "2024-01-01" [homeLoc]
      = .ok "x ☀️\n\nHome:\n09:00 - 26°C, 30%\n\n" :=
  ⟨pythonRound_nearest, pythonRound_tie_even, fun _ _ _ => rfl,
   by decide, by decide⟩

/-- Witness for `spec_C9`: the tie at 5/2 rounds to the even integer 2. -/
theorem spec_C9_witness : pythonRound ((5 : ℚ)/2) % 2 = 0 := by
  have hfloor : ⌊(5 : ℚ)/2⌋ = 2 := by
    rw [Int.floor_eq_iff]
    norm_num
  exact spec_C9.2.1 ((5 : ℚ)/2) (by rw [hfloor]; norm_num)

/-! ## Claim C10: fixed message structure -/

theorem concatAll_pair (a b : String) : concatAll [a, b] = a ++ b := by
  simp [concatAll]

/-- Claim C10: on every successful build over the fixed configuration,
the message is exactly the date line, a space, the chosen emoji and a
blank line, followed by one block per configured location in
configuration order (Work then Home); each block is the location name
header, the data lines, and a terminating blank line; and the retained
hours of each block are a filter (hence an order-preserving sublist) of
that location's API time array. -/
theorem spec_C10 (fetch : ℚ → ℚ → Except PyErr ApiResponse)
    (nowStr today : String) (wla wlo hla hlo : ℚ) (msg : String)
    (h : build_message fetch nowStr today (LOCATIONS wla wlo hla hlo) = .ok msg) :
    ∃ (wld hld : LocData) (b : Bool) (respW respH : ApiResponse),
      gatherData fetch today (LOCATIONS wla wlo hla hlo) = .ok ([wld, hld], b) ∧
      msg = nowStr ++ " " ++ (if b then rainEmoji else sunEmoji) ++ "\n\n" ++
        (renderBlock wld ++ renderBlock hld) ∧
      wld.name = "Work" ∧ hld.name = "Home" ∧
      fetch wla wlo = .ok respW ∧ fetch hla hlo = .ok respH ∧
      wld.times = (timesOf respW).filter (retainedB today) ∧
      hld.times = (timesOf respH).filter (retainedB today) ∧
      List.Sublist wld.times (timesOf respW) ∧
      List.Sublist hld.times (timesOf respH) ∧
      (∃ s, renderBlock wld = "Work" ++ ":\n" ++ s ++ "\n") ∧
      (∃ s, renderBlock hld = "Home" ++ ":\n" ++ s ++ "\n") := by
  obtain ⟨lds, b, hg, hmsg⟩ := build_message_ok_inv h
  have hg0 : gatherData fetch today
      (⟨"Work", wla, wlo⟩ :: ⟨"Home", hla, hlo⟩ :: []) = .ok (lds, b) := hg
  obtain ⟨respW, resW, lds2, b2, hfW, hresW, hg2, hlds, hb⟩ :=
    gatherData_cons_inv hg0
  obtain ⟨respH, resH, lds3, b3, hfH, hresH, hg3, hlds2, hb2⟩ :=
    gatherData_cons_inv hg2
  rw [gatherData_nil] at hg3
  obtain ⟨h31, h32⟩ := Prod.mk.injEq .. ▸ (Except.ok.inj hg3)
  have htW : resW.ftimes = (timesOf respW).filter (retainedB today) :=
    filterGo_ftimes hresW
  have htH : resH.ftimes = (timesOf respH).filter (retainedB today) :=
    filterGo_ftimes hresH
  refine ⟨⟨"Work", resW.ftimes, resW.ftemps, resW.frains⟩,
    ⟨"Home", resH.ftimes, resH.ftemps, resH.frains⟩, b, respW, respH,
    ?_, ?_, rfl, rfl, hfW, hfH, htW, htH, ?_, ?_, ?_, ?_⟩
  · rw [hg, hlds, hlds2, ← h31]
  · rw [hmsg, hlds, hlds2, ← h31, List.map_cons, List.map_cons, List.map_nil,
      concatAll_pair]
  · rw [htW]
    exact List.filter_sublist _
  · rw [htH]
    exact List.filter_sublist _
  · exact ⟨renderLines resW.ftimes resW.ftemps resW.frains, rfl⟩
  · exact ⟨renderLines resH.ftimes resH.ftemps resH.frains, rfl⟩

/-- Witness for `spec_C10` at the sample input over the fixed Work/Home
configuration. -/
theorem spec_C10_witness :
    ∃ (wld hld : LocData) (b : Bool) (respW respH : ApiResponse),
      gatherData sampleFetch "2024-01-01" (LOCATIONS 0 0 1 1)
        = .ok ([wld, hld], b) := by
  obtain ⟨wld, hld, b, respW, respH, hg, _⟩ := spec_C10 sampleFetch
    "Monday, January 1, 2024" "2024-01-01" 0 0 1 1
    "Monday, January 1, 2024 ☀️\n\nWork:\n09:00 - 25°C, 10%\n\nHome:\n09:00 - 25°C, 10%\n\n"
    (by decide)
  exact ⟨wld, hld, b, respW, respH, hg⟩
